import Mathlib

/-!
Shallow embedding of the watermark-remover frontend core: the data model
(`src/types/watermark.ts`), the single-item dispatcher and batch runner of
`src/hooks/useWatermarkRemoval.ts`, the App-level batch loop of
`src/App.tsx`, the region-selection geometry of
`src/components/RegionSelector.tsx`, the remaining-time estimate of
`src/components/VideoProgress.tsx`, and the size-comparison badge of
`PreviewPanel`.  The Tauri `invoke` backend is modelled as an explicit
function parameter returning `Except` (a rejected promise is `.error`, a
resolved one `.ok`); React state updates and callbacks are modelled as
explicit state records and event traces.
-/

namespace WatermarkRemover

/-! ## Data model (`src/types/watermark.ts`) -/

/-- `algorithm: 'telea' | 'navier_stokes'`. -/
inductive Algorithm where
  | telea
  | navier_stokes
deriving DecidableEq, Repr

/-- `processing_method: 'local' | 'cloud'`. -/
inductive ProcessingMethod where
  | localM
  | cloud
deriving DecidableEq, Repr

/-- `RemovalOptions` from `types/watermark.ts`; JS numbers for the two
numeric knobs are modelled as `Nat` and `Rat` (no claim depends on them). -/
structure RemovalOptions where
  algorithm : Algorithm
  dilate_pixels : Nat
  inpaint_radius : Rat
  processing_method : ProcessingMethod
  lossless : Bool
deriving DecidableEq, Repr

/-- `Partial<RemovalOptions>`: each field may be absent. -/
structure RemovalOptionsPatch where
  algorithm : Option Algorithm := none
  dilate_pixels : Option Nat := none
  inpaint_radius : Option Rat := none
  processing_method : Option ProcessingMethod := none
  lossless : Option Bool := none
deriving DecidableEq, Repr

/-- `WatermarkRegion` — `{x, y, width, height}` as produced by the
region selector (integers after `Math.round`). -/
structure WatermarkRegion where
  x : Int
  y : Int
  width : Int
  height : Int
deriving DecidableEq, Repr

/-- `ProcessResult` from `types/watermark.ts`. -/
structure ProcessResult where
  output_path : String
  base64_preview : Option String
  original_size : Nat
  processed_size : Nat
deriving DecidableEq, Repr

/-- `BatchFile.status: 'pending' | 'processing' | 'completed' | 'failed'`. -/
inductive BatchStatus where
  | pending
  | processing
  | completed
  | failed
deriving DecidableEq, Repr

/-- `BatchFile` from `types/watermark.ts`. -/
structure BatchFile where
  id : String
  path : String
  filename : String
  status : BatchStatus
  error : Option String := none
  processedPath : Option String := none
deriving DecidableEq, Repr

/-- `VideoProgress` from `types/watermark.ts`: `{current_frame,
total_frames, percent, estimated_remaining_secs}`. -/
structure VideoProgressRec where
  current_frame : Nat
  total_frames : Nat
  percent : Rat
  estimated_remaining_secs : Option Rat
deriving DecidableEq, Repr

/-- `VideoProcessResult` from `types/watermark.ts`. -/
structure VideoProcessResult where
  output_path : String
  frames_processed : Nat
  duration_secs : Rat
deriving DecidableEq, Repr

/-! ## Options merging (`useWatermarkRemoval.ts`, lines 52–58 and 100) -/

/-- `DEFAULT_OPTIONS` of `useWatermarkRemoval.ts`. -/
def DEFAULT_OPTIONS : RemovalOptions :=
  { algorithm := .telea
    dilate_pixels := 3
    inpaint_radius := 5
    processing_method := .localM
    lossless := false }

/-- `{ ...DEFAULT_OPTIONS, ...options }` with `options` an optional
`Partial<RemovalOptions>`: an absent field keeps the default. -/
def mergeOptions (options : Option RemovalOptionsPatch) : RemovalOptions :=
  let p := options.getD {}
  { algorithm := p.algorithm.getD DEFAULT_OPTIONS.algorithm
    dilate_pixels := p.dilate_pixels.getD DEFAULT_OPTIONS.dilate_pixels
    inpaint_radius := p.inpaint_radius.getD DEFAULT_OPTIONS.inpaint_radius
    processing_method := p.processing_method.getD DEFAULT_OPTIONS.processing_method
    lossless := p.lossless.getD DEFAULT_OPTIONS.lossless }

/-- The patch whose every field is present: how `App.tsx` hands its full
`options : RemovalOptions` record to `removeWatermark`. -/
def toPatch (o : RemovalOptions) : RemovalOptionsPatch :=
  { algorithm := some o.algorithm
    dilate_pixels := some o.dilate_pixels
    inpaint_radius := some o.inpaint_radius
    processing_method := some o.processing_method
    lossless := some o.lossless }

/-! ## Region selector (`src/components/RegionSelector.tsx`) -/

/-- A point in image coordinates, after `Math.round` and clamping. -/
structure Point where
  x : Int
  y : Int
deriving DecidableEq, Repr

/-- JavaScript `Math.round`: round half toward positive infinity. -/
def jsRound (q : Rat) : Int := ⌊q + 1 / 2⌋

/-- JavaScript `Math.abs` on integers. -/
def jsAbs (z : Int) : Int := if z < 0 then -z else z

/-- One coordinate of `getImageCoordinates` (lines 58–62):
`Math.max(0, Math.min(bound, Math.round(v)))`. -/
def clampCoord (bound : Nat) (v : Rat) : Int :=
  max 0 (min (bound : Int) (jsRound v))

/-- `getImageCoordinates` (lines 47–63) after the scale division: the raw
scaled coordinates are arbitrary rationals, rounded and clamped to the
image bounds. -/
def getImageCoordinates (imageWidth imageHeight : Nat) (x y : Rat) : Point :=
  { x := clampCoord imageWidth x, y := clampCoord imageHeight y }

/-- `handleMouseUp` (lines 83–102): returns the region passed to
`onRegionSelect`, or `none` when no selection is registered. -/
def handleMouseUp (isSelecting : Bool) (startPoint currentPoint : Option Point)
    (disabled : Bool) : Option WatermarkRegion :=
  match isSelecting, startPoint, currentPoint, disabled with
  | true, some s, some c, false =>
    let x := min s.x c.x
    let y := min s.y c.y
    let width := jsAbs (c.x - s.x)
    let height := jsAbs (c.y - s.y)
    if width > 5 ∧ height > 5 then
      some { x := x, y := y, width := width, height := height }
    else
      none
  | _, _, _, _ => none

/-! ## The Tauri backend, as seen from the hook

`invoke(cmd, args)` returns a promise: a rejection is `.error msg`
(the hook's `catch` arm), a resolution carries the deserialized
`ProcessResult`, which the hook's batch loop additionally guards against
being null — hence `Except String (Option ProcessResult)`. -/

/-- The two inpainting commands the hook invokes. -/
inductive Cmd where
  | remove_watermark
  | remove_watermark_cloud
deriving DecidableEq, Repr

/-- The backend: one `invoke` of an inpainting command. -/
def Backend : Type :=
  Cmd → String → WatermarkRegion → RemovalOptions → Except String (Option ProcessResult)

/-! ## Single-item dispatcher: `removeWatermark` (lines 91–128) -/

/-- Observable outcome of one `removeWatermark` call: its return value,
the `error` state when it returns (`setError(null)` at entry, `setError
(message)` in the catch arm), the `isProcessing` state after the
`finally`, and the backend commands it invoked, in order. -/
structure RWOutcome where
  result : Option ProcessResult
  errorState : Option String
  isProcessing : Bool
  calls : List (Cmd × String)
deriving DecidableEq, Repr

/-- `removeWatermark` (lines 91–128): merge the options over the
defaults, invoke the cloud command when `processing_method === 'cloud'`
and the local one otherwise, catch any rejection into the error state and
return null for it. -/
def removeWatermark (backend : Backend) (imagePath : String)
    (region : WatermarkRegion) (options : Option RemovalOptionsPatch) : RWOutcome :=
  let mergedOptions := mergeOptions options
  if mergedOptions.processing_method = ProcessingMethod.cloud then
    match backend Cmd.remove_watermark_cloud imagePath region mergedOptions with
    | .ok result =>
      { result := result, errorState := none, isProcessing := false
        calls := [(Cmd.remove_watermark_cloud, imagePath)] }
    | .error err =>
      { result := none, errorState := some err, isProcessing := false
        calls := [(Cmd.remove_watermark_cloud, imagePath)] }
  else
    match backend Cmd.remove_watermark imagePath region mergedOptions with
    | .ok result =>
      { result := result, errorState := none, isProcessing := false
        calls := [(Cmd.remove_watermark, imagePath)] }
    | .error err =>
      { result := none, errorState := some err, isProcessing := false
        calls := [(Cmd.remove_watermark, imagePath)] }

/-! ## Batch runner: `processBatch` (lines 293–347) -/

/-- A `Partial<BatchFile>` update passed to `onFileUpdate`. -/
inductive BatchUpdate where
  | processing
  | completed (processedPath : String)
  | failed (error : String)
deriving DecidableEq, Repr

/-- One observable step of the batch loop: a backend invocation or an
`onFileUpdate(id, update)` callback. -/
inductive BEvent where
  | call (c : Cmd) (imagePath : String)
  | update (id : String) (u : BatchUpdate)
deriving DecidableEq, Repr

/-- The command `processBatch` selects for every file (lines 312–324):
cloud iff `options.processing_method === 'cloud'`. -/
def batchCmd (options : RemovalOptions) : Cmd :=
  if options.processing_method = ProcessingMethod.cloud then
    Cmd.remove_watermark_cloud
  else
    Cmd.remove_watermark

/-- `processBatch` (lines 293–347) as the trace of its observable steps,
in order: skip a file already `completed` or `failed`; otherwise report
`processing`, invoke the selected command on the file's path, and report
`completed` with the result's output path, or `failed` with the caught
message, or `failed` with `'Processing returned no result'` when the
resolved value is null — then continue with the rest of the list. -/
def processBatch (backend : Backend) (region : WatermarkRegion)
    (options : RemovalOptions) : List BatchFile → List BEvent
  | [] => []
  | file :: files =>
    if file.status = BatchStatus.completed ∨ file.status = BatchStatus.failed then
      processBatch backend region options files
    else
      BEvent.update file.id BatchUpdate.processing ::
      BEvent.call (batchCmd options) file.path ::
      ((match backend (batchCmd options) file.path region options with
        | .ok (some result) => [BEvent.update file.id (BatchUpdate.completed result.output_path)]
        | .ok none => [BEvent.update file.id (BatchUpdate.failed "Processing returned no result")]
        | .error err => [BEvent.update file.id (BatchUpdate.failed err)]) ++
       processBatch backend region options files)

/-- The trace `processBatch` emits for one file: empty for a skipped
file, and the `processing`/`call`/terminal-update block otherwise. -/
def fileTrace (backend : Backend) (region : WatermarkRegion)
    (options : RemovalOptions) (file : BatchFile) : List BEvent :=
  if file.status = BatchStatus.completed ∨ file.status = BatchStatus.failed then
    []
  else
    BEvent.update file.id BatchUpdate.processing ::
    BEvent.call (batchCmd options) file.path ::
    (match backend (batchCmd options) file.path region options with
     | .ok (some result) => [BEvent.update file.id (BatchUpdate.completed result.output_path)]
     | .ok none => [BEvent.update file.id (BatchUpdate.failed "Processing returned no result")]
     | .error err => [BEvent.update file.id (BatchUpdate.failed err)])

/-- The backend calls among a batch trace's events, in order. -/
def callsOf : List BEvent → List (Cmd × String)
  | [] => []
  | BEvent.call c p :: es => (c, p) :: callsOf es
  | BEvent.update _ _ :: es => callsOf es

/-- The command `removeWatermark` routes to, as a function of its
optional options patch. -/
def routedCmd (options : Option RemovalOptionsPatch) : Cmd :=
  if (mergeOptions options).processing_method = ProcessingMethod.cloud then
    Cmd.remove_watermark_cloud
  else
    Cmd.remove_watermark

/-! ## App-level batch loop: `handleProcessBatch` (`App.tsx`, lines 163–204) -/

/-- One observable step of `handleProcessBatch`: a `setBatchProgress`
with a fresh record, the final `setBatchProgress(null)`, or a
`handleBatchFileUpdate(id, update)`. -/
inductive AppEvent where
  | progress (currentIndex totalFiles : Nat) (currentFilename : String)
  | progressCleared
  | fileUpdate (id : String) (u : BatchUpdate)
deriving DecidableEq, Repr

/-- JavaScript `a || b` on a nullable string: the default when the left
side is null or the empty string. -/
def jsOrDefault (s : Option String) (dflt : String) : String :=
  match s with
  | some v => if v = "" then dflt else v
  | none => dflt

/-- The `for (let i = 0; ...)` loop body of `handleProcessBatch` (lines
169–200): `i` is the index in the full file array, `totalFiles` the array
length, `errClosure` the `error` state value captured by the callback's
closure.  A file already `completed` or `failed` is skipped; otherwise
the loop publishes the progress record, marks the file `processing`,
awaits `removeWatermark`, and marks it `completed` or `failed`. -/
def handleProcessBatchLoop (backend : Backend) (errClosure : Option String)
    (region : WatermarkRegion) (options : RemovalOptions) (totalFiles : Nat) :
    Nat → List BatchFile → List AppEvent
  | _, [] => []
  | i, file :: files =>
    if file.status = BatchStatus.completed ∨ file.status = BatchStatus.failed then
      handleProcessBatchLoop backend errClosure region options totalFiles (i + 1) files
    else
      AppEvent.progress (i + 1) totalFiles file.filename ::
      AppEvent.fileUpdate file.id BatchUpdate.processing ::
      ((match (removeWatermark backend file.path region (some (toPatch options))).result with
        | some result => [AppEvent.fileUpdate file.id (BatchUpdate.completed result.output_path)]
        | none =>
          [AppEvent.fileUpdate file.id
            (BatchUpdate.failed (jsOrDefault errClosure "Processing failed"))]) ++
       handleProcessBatchLoop backend errClosure region options totalFiles (i + 1) files)

/-- `handleProcessBatch` (lines 163–204): bail out when no region is
selected or the file list is empty; otherwise run the loop over the full
list and finish with `setBatchProgress(null)`. -/
def handleProcessBatch (backend : Backend) (errClosure : Option String)
    (selectedRegion : Option WatermarkRegion) (options : RemovalOptions)
    (batchFiles : List BatchFile) : List AppEvent :=
  match selectedRegion with
  | none => []
  | some region =>
    if batchFiles.length = 0 then []
    else
      handleProcessBatchLoop backend errClosure region options batchFiles.length 0 batchFiles ++
      [AppEvent.progressCleared]

/-- The block the App loop emits for the file at full-list index `i`. -/
def appFileTrace (backend : Backend) (errClosure : Option String)
    (region : WatermarkRegion) (options : RemovalOptions) (totalFiles i : Nat)
    (file : BatchFile) : List AppEvent :=
  if file.status = BatchStatus.completed ∨ file.status = BatchStatus.failed then
    []
  else
    AppEvent.progress (i + 1) totalFiles file.filename ::
    AppEvent.fileUpdate file.id BatchUpdate.processing ::
    (match (removeWatermark backend file.path region (some (toPatch options))).result with
     | some result => [AppEvent.fileUpdate file.id (BatchUpdate.completed result.output_path)]
     | none =>
       [AppEvent.fileUpdate file.id
         (BatchUpdate.failed (jsOrDefault errClosure "Processing failed"))])

/-- The backend calls the App loop makes, file by file (lines 169–200):
none for a file already `completed` or `failed`, those of its
`removeWatermark` invocation otherwise. -/
def appCalls (backend : Backend) (region : WatermarkRegion) (options : RemovalOptions) :
    List BatchFile → List (Cmd × String)
  | [] => []
  | file :: files =>
    if file.status = BatchStatus.completed ∨ file.status = BatchStatus.failed then
      appCalls backend region options files
    else
      (removeWatermark backend file.path region (some (toPatch options))).calls ++
      appCalls backend region options files

/-! ## Video runner hook state: `processVideo` (lines 249–278) -/

/-- The hook state the video functions touch. -/
structure HookState where
  isProcessing : Bool
  error : Option String
  videoProgress : Option VideoProgressRec
  pollingActive : Bool
deriving DecidableEq, Repr

/-- `startProgressPolling` (lines 227–240): (re)installs the 500 ms
interval timer. -/
def startProgressPolling (s : HookState) : HookState :=
  { s with pollingActive := true }

/-- `stopProgressPolling` (lines 242–247): clears the interval timer when
one is installed. -/
def stopProgressPolling (s : HookState) : HookState :=
  { s with pollingActive := false }

/-- The fresh record `processVideo` installs at entry (line 256). -/
def initialVideoProgress : VideoProgressRec :=
  { current_frame := 0, total_frames := 0, percent := 0, estimated_remaining_secs := none }

/-- Lines 254–259 of `processVideo`: mark processing, clear the error,
install the fresh progress record, start polling. -/
def processVideoEntry (s : HookState) : HookState :=
  startProgressPolling
    { s with isProcessing := true, error := none, videoProgress := some initialVideoProgress }

/-- `processVideo` (lines 249–278): after the entry block, await the
`process_video` invocation — while it is pending the 500 ms poller may
overwrite `videoProgress` with any snapshot (`polledDuringRun`) — then
catch a rejection into the error state, and in the `finally` block stop
polling, clear `isProcessing` and null the progress record. -/
def processVideo (videoBackend : Except String VideoProcessResult)
    (polledDuringRun : Option VideoProgressRec) (s : HookState) :
    HookState × Option VideoProcessResult :=
  let s₁ := processVideoEntry s
  let s₂ := { s₁ with videoProgress := polledDuringRun }
  match videoBackend with
  | .ok result =>
    let s₃ := stopProgressPolling s₂
    ({ s₃ with isProcessing := false, videoProgress := none }, some result)
  | .error err =>
    let s₃ := stopProgressPolling { s₂ with error := some err }
    ({ s₃ with isProcessing := false, videoProgress := none }, none)

/-! ## Remaining-time estimate (`VideoProgress.tsx`, lines 30–34 and 68) -/

/-- Line 33: `percent > 0 ? (elapsedTime / percent) * 100 : 0`. -/
def estimatedTotal (elapsedTime percent : Rat) : Rat :=
  if percent > 0 then elapsedTime / percent * 100 else 0

/-- Line 34: `Math.max(0, estimatedTotal - elapsedTime)`. -/
def estimatedRemaining (elapsedTime percent : Rat) : Rat :=
  max 0 (estimatedTotal elapsedTime percent - elapsedTime)

/-- Line 68: the remaining-time figure is rendered only when
`percent > 5`; otherwise the placeholder text is shown. -/
def remainingDisplay (elapsedTime percent : Rat) : Option Rat :=
  if percent > 5 then some (estimatedRemaining elapsedTime percent) else none

/-! ## Size-comparison badge (`PreviewPanel`, lines 272–288) -/

/-- The badge rendered next to the size comparison. -/
inductive SizeBadge where
  | saved (pct : Int)
  | increased (pct : Int)
  | unchanged
deriving DecidableEq, Repr

/-- Lines 277–287: `-Math.round((1 - processed/original)*100)%` when the
output is smaller, `+Math.round((processed/original - 1)*100)%` when it
is larger, `0%` when equal. -/
def sizeComparison (originalSize processedSize : Nat) : SizeBadge :=
  if originalSize > processedSize then
    SizeBadge.saved (jsRound ((1 - (processedSize : Rat) / (originalSize : Rat)) * 100))
  else if originalSize < processedSize then
    SizeBadge.increased (jsRound (((processedSize : Rat) / (originalSize : Rat) - 1) * 100))
  else
    SizeBadge.unchanged

/-! ## Concrete fixtures used by the witnesses -/

/-- A backend whose every invocation rejects with `"boom"`. -/
def bkFail : Backend := fun _ _ _ _ => Except.error "boom"

/-- A backend whose every invocation resolves with a fixed result. -/
def bkOk : Backend := fun _ _ _ _ =>
  Except.ok (some { output_path := "/tmp/out.png", base64_preview := none
                    original_size := 1000, processed_size := 700 })

/-- A pending batch file named after its id. -/
def pendingFile (i : String) : BatchFile :=
  { id := i, path := i ++ ".png", filename := i, status := BatchStatus.pending }

/-- A completed batch file named after its id. -/
def completedFile (i : String) : BatchFile :=
  { id := i, path := i ++ ".png", filename := i, status := BatchStatus.completed }

/-- A fixed region used by the witnesses. -/
def region0 : WatermarkRegion := { x := 10, y := 10, width := 40, height := 20 }

/-! # Theorems -/

theorem mergeOptions_toPatch (o : RemovalOptions) :
    mergeOptions (some (toPatch o)) = o := rfl

theorem processBatch_nil (backend : Backend) (region : WatermarkRegion)
    (options : RemovalOptions) : processBatch backend region options [] = [] := rfl

theorem processBatch_cons (backend : Backend) (region : WatermarkRegion)
    (options : RemovalOptions) (file : BatchFile) (files : List BatchFile) :
    processBatch backend region options (file :: files) =
      fileTrace backend region options file ++ processBatch backend region options files := by
  by_cases h : file.status = BatchStatus.completed ∨ file.status = BatchStatus.failed
  · simp [processBatch, fileTrace, h]
  · simp only [processBatch, fileTrace, if_neg h]
    rfl

theorem processBatch_append (backend : Backend) (region : WatermarkRegion)
    (options : RemovalOptions) (l₁ l₂ : List BatchFile) :
    processBatch backend region options (l₁ ++ l₂) =
      processBatch backend region options l₁ ++ processBatch backend region options l₂ := by
  induction l₁ with
  | nil => simp [processBatch_nil]
  | cons f fs ih => simp [processBatch_cons, ih]

theorem handleProcessBatchLoop_cons (backend : Backend) (errClosure : Option String)
    (region : WatermarkRegion) (options : RemovalOptions) (totalFiles i : Nat)
    (file : BatchFile) (files : List BatchFile) :
    handleProcessBatchLoop backend errClosure region options totalFiles i (file :: files) =
      appFileTrace backend errClosure region options totalFiles i file ++
      handleProcessBatchLoop backend errClosure region options totalFiles (i + 1) files := by
  by_cases h : file.status = BatchStatus.completed ∨ file.status = BatchStatus.failed
  · simp [handleProcessBatchLoop, appFileTrace, h]
  · simp only [handleProcessBatchLoop, appFileTrace, if_neg h]
    rfl

theorem handleProcessBatchLoop_append (backend : Backend) (errClosure : Option String)
    (region : WatermarkRegion) (options : RemovalOptions) (totalFiles : Nat)
    (l₁ l₂ : List BatchFile) (i : Nat) :
    handleProcessBatchLoop backend errClosure region options totalFiles i (l₁ ++ l₂) =
      handleProcessBatchLoop backend errClosure region options totalFiles i l₁ ++
      handleProcessBatchLoop backend errClosure region options totalFiles (i + l₁.length) l₂ := by
  induction l₁ generalizing i with
  | nil => simp [handleProcessBatchLoop]
  | cons f fs ih =>
    simp only [List.cons_append, handleProcessBatchLoop_cons, ih, List.length_cons,
      List.append_assoc]
    ring_nf

theorem clampCoord_nonneg (bound : Nat) (v : Rat) : 0 ≤ clampCoord bound v :=
  le_max_left 0 _

theorem clampCoord_le (bound : Nat) (v : Rat) : clampCoord bound v ≤ (bound : Int) :=
  max_le (Int.natCast_nonneg bound) (min_le_left _ _)

/-- C9: the region-selection layer only emits a region whose width and
height each exceed 5 pixels — hence never one with width ≤ 0 or
height ≤ 0, and in particular never `{x:10, y:10, width:0, height:5}`. -/
theorem region_selection_min_size (isSelecting : Bool)
    (startPoint currentPoint : Option Point) (disabled : Bool) (r : WatermarkRegion)
    (h : handleMouseUp isSelecting startPoint currentPoint disabled = some r) :
    5 < r.width ∧ 5 < r.height ∧ 0 < r.width ∧ 0 < r.height ∧
    handleMouseUp isSelecting startPoint currentPoint disabled ≠
      some { x := 10, y := 10, width := 0, height := 5 } := by
  have key : ∀ r' : WatermarkRegion,
      handleMouseUp isSelecting startPoint currentPoint disabled = some r' →
      5 < r'.width ∧ 5 < r'.height := by
    intro r' h'
    rcases isSelecting with _ | _ <;> rcases startPoint with _ | s <;>
      rcases currentPoint with _ | c <;> rcases disabled with _ | _ <;>
      simp only [handleMouseUp] at h' <;> try exact Option.noConfusion h'
    split_ifs at h' with hc
    cases h'
    exact hc
  obtain ⟨hw, hh⟩ := key r h
  refine ⟨hw, hh, by omega, by omega, fun hbad => ?_⟩
  have := (key _ hbad).1
  exact absurd this (by decide)

/-- C10: every region emitted from a gesture whose endpoints went through
`getImageCoordinates` lies entirely within the image bounds:
`0 ≤ x`, `0 ≤ y`, `x + width ≤ imageWidth`, `y + height ≤ imageHeight`. -/
theorem region_selector_emits_in_bounds (imageWidth imageHeight : Nat)
    (x₁ y₁ x₂ y₂ : Rat) (r : WatermarkRegion)
    (h : handleMouseUp true
        (some (getImageCoordinates imageWidth imageHeight x₁ y₁))
        (some (getImageCoordinates imageWidth imageHeight x₂ y₂)) false = some r) :
    0 ≤ r.x ∧ 0 ≤ r.y ∧ r.x + r.width ≤ (imageWidth : Int) ∧
      r.y + r.height ≤ (imageHeight : Int) := by
  have hx₁0 := clampCoord_nonneg imageWidth x₁
  have hx₂0 := clampCoord_nonneg imageWidth x₂
  have hy₁0 := clampCoord_nonneg imageHeight y₁
  have hy₂0 := clampCoord_nonneg imageHeight y₂
  have hx₁b := clampCoord_le imageWidth x₁
  have hx₂b := clampCoord_le imageWidth x₂
  have hy₁b := clampCoord_le imageHeight y₁
  have hy₂b := clampCoord_le imageHeight y₂
  simp only [handleMouseUp, getImageCoordinates] at h
  split_ifs at h with hc
  cases h
  simp only [jsAbs]
  refine ⟨le_min hx₁0 hx₂0, le_min hy₁0 hy₂0, ?_, ?_⟩
  · split_ifs <;> simp only [min_def] <;> split_ifs <;> omega
  · split_ifs <;> simp only [min_def] <;> split_ifs <;> omega

/-- C7: the displayed remaining-time estimate is
`max 0 (elapsed/percent*100 - elapsed)` once `percent > 0`, hence
non-negative; at `percent = 0` the estimated total is `0` and no
remaining-time figure is displayed. -/
theorem remaining_time_estimate (elapsedTime percent e : Rat) (hpos : 0 < percent) :
    estimatedTotal elapsedTime percent = elapsedTime / percent * 100 ∧
    estimatedRemaining elapsedTime percent =
      max 0 (estimatedTotal elapsedTime percent - elapsedTime) ∧
    0 ≤ estimatedRemaining elapsedTime percent ∧
    estimatedTotal e 0 = 0 ∧
    remainingDisplay e 0 = none := by
  refine ⟨by simp [estimatedTotal, hpos], rfl, le_max_left 0 _,
    by simp [estimatedTotal], by norm_num [remainingDisplay]⟩

theorem remaining_time_estimate_witness :
    (0 : Rat) < 25 ∧
    (estimatedTotal 50 25 = 50 / 25 * 100 ∧
     estimatedRemaining 50 25 = max 0 (estimatedTotal 50 25 - 50) ∧
     0 ≤ estimatedRemaining 50 25 ∧
     estimatedTotal 3 0 = 0 ∧
     remainingDisplay 3 0 = none) :=
  ⟨by norm_num, remaining_time_estimate 50 25 3 (by norm_num)⟩

/-- C8: for `originalSize > processedSize > 0` the badge reports a
reduction of `round((1 - processed/original) * 100)` percent (a figure
between 0 and 100); for `processedSize > originalSize` it reports an
increase of `round((processed/original - 1) * 100)` percent; for equal
sizes it reports 0%. -/
theorem size_reduction_report (o p o' p' n : Nat)
    (h₁ : p < o) (h₂ : 0 < p) (h₃ : o' < p') :
    sizeComparison o p = SizeBadge.saved (jsRound ((1 - (p : Rat) / (o : Rat)) * 100)) ∧
    0 ≤ jsRound ((1 - (p : Rat) / (o : Rat)) * 100) ∧
    jsRound ((1 - (p : Rat) / (o : Rat)) * 100) ≤ 100 ∧
    sizeComparison o' p' = SizeBadge.increased (jsRound (((p' : Rat) / (o' : Rat) - 1) * 100)) ∧
    sizeComparison n n = SizeBadge.unchanged := by
  have ho : (0 : Rat) < o := by exact_mod_cast h₂.trans h₁
  have hpo : (p : Rat) / o ≤ 1 := by
    rw [div_le_one ho]
    exact_mod_cast h₁.le
  have hpo0 : (0 : Rat) ≤ (p : Rat) / o := by positivity
  refine ⟨by simp [sizeComparison, h₁], ?_, ?_, ?_, by simp [sizeComparison]⟩
  · unfold jsRound
    refine Int.le_floor.mpr ?_
    push_cast
    nlinarith
  · unfold jsRound
    have hlt : (1 - (p : Rat) / o) * 100 + 1 / 2 < ((101 : Int) : Rat) := by
      push_cast
      nlinarith
    have := Int.floor_lt.mpr hlt
    omega
  · simp only [sizeComparison, gt_iff_lt]
    rw [if_neg (by omega), if_pos h₃]

theorem size_reduction_report_witness :
    700 < 1000 ∧ 0 < 700 ∧ 500 < 600 ∧
    (sizeComparison 1000 700 = SizeBadge.saved (jsRound ((1 - (700 : Rat) / (1000 : Rat)) * 100)) ∧
     0 ≤ jsRound ((1 - (700 : Rat) / (1000 : Rat)) * 100) ∧
     jsRound ((1 - (700 : Rat) / (1000 : Rat)) * 100) ≤ 100 ∧
     sizeComparison 500 600 = SizeBadge.increased (jsRound (((600 : Rat) / (500 : Rat) - 1) * 100)) ∧
     sizeComparison 42 42 = SizeBadge.unchanged) :=
  ⟨by norm_num, by norm_num, by norm_num,
   size_reduction_report 1000 700 500 600 42 (by norm_num) (by norm_num) (by norm_num)⟩

/-- C5: `removeWatermark` never re-throws: when the backend invocation
rejects it returns null with the rejection's message stored in the error
state; when it resolves it returns the resolved result with the error
state still null (as set at entry); and `isProcessing` is reset by the
`finally` block. -/
theorem single_item_error_conversion (backend : Backend) (imagePath : String)
    (region : WatermarkRegion) (options : Option RemovalOptionsPatch) :
    (removeWatermark backend imagePath region options).result =
      (match backend (routedCmd options) imagePath region (mergeOptions options) with
       | .ok r => r
       | .error _ => none) ∧
    (removeWatermark backend imagePath region options).errorState =
      (match backend (routedCmd options) imagePath region (mergeOptions options) with
       | .ok _ => none
       | .error e => some e) ∧
    (removeWatermark backend imagePath region options).isProcessing = false := by
  by_cases hm : (mergeOptions options).processing_method = ProcessingMethod.cloud
  · cases hb : backend Cmd.remove_watermark_cloud imagePath region (mergeOptions options) <;>
      simp [removeWatermark, routedCmd, hm, hb]
  · cases hb : backend Cmd.remove_watermark imagePath region (mergeOptions options) <;>
      simp [removeWatermark, routedCmd, hm, hb]

/-- C6: `processVideo` first installs the fresh progress record
`{current_frame: 0, total_frames: 0, percent: 0,
estimated_remaining_secs: null}` and starts polling, and on every exit
path — resolved result or caught rejection — the `finally` block stops
the polling timer and resets the progress record to null. -/
theorem video_progress_lifecycle (videoBackend : Except String VideoProcessResult)
    (polledDuringRun : Option VideoProgressRec) (s : HookState) :
    (processVideo videoBackend polledDuringRun s).1.videoProgress = none ∧
    (processVideo videoBackend polledDuringRun s).1.pollingActive = false ∧
    (processVideo videoBackend polledDuringRun s).1.isProcessing = false ∧
    (processVideoEntry s).videoProgress =
      some { current_frame := 0, total_frames := 0, percent := 0
             estimated_remaining_secs := none } ∧
    (processVideoEntry s).pollingActive = true := by
  cases videoBackend <;>
    simp [processVideo, processVideoEntry, startProgressPolling, stopProgressPolling,
      initialVideoProgress]

theorem region_selection_min_size_witness :
    (handleMouseUp true (some { x := 0, y := 0 }) (some { x := 10, y := 10 }) false =
      some { x := 0, y := 0, width := 10, height := 10 }) ∧
    (5 < (WatermarkRegion.mk 0 0 10 10).width ∧ 5 < (WatermarkRegion.mk 0 0 10 10).height ∧
     0 < (WatermarkRegion.mk 0 0 10 10).width ∧ 0 < (WatermarkRegion.mk 0 0 10 10).height ∧
     handleMouseUp true (some { x := 0, y := 0 }) (some { x := 10, y := 10 }) false ≠
       some { x := 10, y := 10, width := 0, height := 5 }) :=
  ⟨by decide,
   region_selection_min_size true (some { x := 0, y := 0 }) (some { x := 10, y := 10 }) false
     (WatermarkRegion.mk 0 0 10 10) (by decide)⟩

theorem region_selector_emits_in_bounds_witness :
    (handleMouseUp true (some (getImageCoordinates 100 100 0 0))
        (some (getImageCoordinates 100 100 50 50)) false =
      some (WatermarkRegion.mk 0 0 50 50)) ∧
    (0 ≤ (WatermarkRegion.mk 0 0 50 50).x ∧ 0 ≤ (WatermarkRegion.mk 0 0 50 50).y ∧
     (WatermarkRegion.mk 0 0 50 50).x + (WatermarkRegion.mk 0 0 50 50).width ≤ ((100 : Nat) : Int) ∧
     (WatermarkRegion.mk 0 0 50 50).y + (WatermarkRegion.mk 0 0 50 50).height ≤ ((100 : Nat) : Int)) := by
  have h₁ : getImageCoordinates 100 100 0 0 = { x := 0, y := 0 } := by
    norm_num [getImageCoordinates, clampCoord, jsRound]
  have h₂ : getImageCoordinates 100 100 50 50 = { x := 50, y := 50 } := by
    norm_num [getImageCoordinates, clampCoord, jsRound]
  exact ⟨by rw [h₁, h₂]; decide,
    region_selector_emits_in_bounds 100 100 0 0 50 50 (WatermarkRegion.mk 0 0 50 50)
      (by rw [h₁, h₂]; decide)⟩

theorem processing_update_mem (backend : Backend) (region : WatermarkRegion)
    (options : RemovalOptions) (files : List BatchFile) (g : BatchFile)
    (hg : g ∈ files)
    (helig : ¬(g.status = BatchStatus.completed ∨ g.status = BatchStatus.failed)) :
    BEvent.update g.id BatchUpdate.processing ∈ processBatch backend region options files := by
  induction files with
  | nil => cases hg
  | cons f fs ih =>
    rw [processBatch_cons]
    rcases List.mem_cons.mp hg with hgf | hgm
    · subst hgf
      refine List.mem_append.mpr (Or.inl ?_)
      simp [fileTrace, helig]
    · exact List.mem_append.mpr (Or.inr (ih hgm))

theorem processBatch_completed_prefix (backend : Backend) (region : WatermarkRegion)
    (options : RemovalOptions) :
    ∀ (done rest : List BatchFile), (∀ g ∈ done, g.status = BatchStatus.completed) →
    processBatch backend region options (done ++ rest) =
      processBatch backend region options rest := by
  intro done
  induction done with
  | nil => intro rest _; simp
  | cons f fs ih =>
    intro rest hall
    rw [List.cons_append, processBatch_cons]
    have hf : fileTrace backend region options f = [] := by
      simp [fileTrace, hall f (List.mem_cons_self f fs)]
    rw [hf, List.nil_append]
    exact ih rest fun g hg => hall g (List.mem_cons_of_mem f hg)

/-- C1: in `processBatch`, a file whose backend call rejects (or resolves
to null) is recorded `failed` with an error message, the batch continues
with every subsequent file, every eligible file still receives its
per-file updates, and in the App-level loop a null `removeWatermark`
result likewise records `failed` and continues. -/
theorem batch_partial_failure_isolation (backend : Backend) (region : WatermarkRegion)
    (options : RemovalOptions) (pre post : List BatchFile) (file : BatchFile) (err : String)
    (errClosure : Option String) (regionA : WatermarkRegion) (tf : Nat)
    (helig : ¬(file.status = BatchStatus.completed ∨ file.status = BatchStatus.failed))
    (hfail : backend (batchCmd options) file.path region options = Except.error err ∨
      (backend (batchCmd options) file.path region options = Except.ok none ∧
       err = "Processing returned no result"))
    (hres : (removeWatermark backend file.path regionA (some (toPatch options))).result = none) :
    processBatch backend region options (pre ++ file :: post) =
      processBatch backend region options pre ++
      BEvent.update file.id BatchUpdate.processing ::
      BEvent.call (batchCmd options) file.path ::
      BEvent.update file.id (BatchUpdate.failed err) ::
      processBatch backend region options post ∧
    (∀ g ∈ pre ++ file :: post,
      ¬(g.status = BatchStatus.completed ∨ g.status = BatchStatus.failed) →
      BEvent.update g.id BatchUpdate.processing ∈
        processBatch backend region options (pre ++ file :: post)) ∧
    handleProcessBatchLoop backend errClosure regionA options tf 0 (pre ++ file :: post) =
      handleProcessBatchLoop backend errClosure regionA options tf 0 pre ++
      AppEvent.progress (pre.length + 1) tf file.filename ::
      AppEvent.fileUpdate file.id BatchUpdate.processing ::
      AppEvent.fileUpdate file.id
        (BatchUpdate.failed (jsOrDefault errClosure "Processing failed")) ::
      handleProcessBatchLoop backend errClosure regionA options tf (pre.length + 1) post := by
  refine ⟨?_, ?_, ?_⟩
  · rw [processBatch_append, processBatch_cons]
    have hft : fileTrace backend region options file =
        [BEvent.update file.id BatchUpdate.processing,
         BEvent.call (batchCmd options) file.path,
         BEvent.update file.id (BatchUpdate.failed err)] := by
      rcases hfail with hf | ⟨hf, he⟩
      · simp [fileTrace, helig, hf]
      · subst he
        simp [fileTrace, helig, hf]
    rw [hft]
    simp
  · intro g hg he
    exact processing_update_mem backend region options _ g hg he
  · rw [handleProcessBatchLoop_append, handleProcessBatchLoop_cons]
    simp [appFileTrace, helig, hres]

theorem batch_partial_failure_isolation_witness :
    (¬((pendingFile "c").status = BatchStatus.completed ∨
       (pendingFile "c").status = BatchStatus.failed)) ∧
    (bkFail (batchCmd DEFAULT_OPTIONS) (pendingFile "c").path region0 DEFAULT_OPTIONS =
        Except.error "boom" ∨
      (bkFail (batchCmd DEFAULT_OPTIONS) (pendingFile "c").path region0 DEFAULT_OPTIONS =
        Except.ok none ∧ "boom" = "Processing returned no result")) ∧
    ((removeWatermark bkFail (pendingFile "c").path region0
        (some (toPatch DEFAULT_OPTIONS))).result = none) ∧
    (processBatch bkFail region0 DEFAULT_OPTIONS
        ([pendingFile "a"] ++ pendingFile "c" :: [pendingFile "b"]) =
      processBatch bkFail region0 DEFAULT_OPTIONS [pendingFile "a"] ++
      BEvent.update (pendingFile "c").id BatchUpdate.processing ::
      BEvent.call (batchCmd DEFAULT_OPTIONS) (pendingFile "c").path ::
      BEvent.update (pendingFile "c").id (BatchUpdate.failed "boom") ::
      processBatch bkFail region0 DEFAULT_OPTIONS [pendingFile "b"] ∧
    (∀ g ∈ [pendingFile "a"] ++ pendingFile "c" :: [pendingFile "b"],
      ¬(g.status = BatchStatus.completed ∨ g.status = BatchStatus.failed) →
      BEvent.update g.id BatchUpdate.processing ∈
        processBatch bkFail region0 DEFAULT_OPTIONS
          ([pendingFile "a"] ++ pendingFile "c" :: [pendingFile "b"])) ∧
    handleProcessBatchLoop bkFail none region0 DEFAULT_OPTIONS 3 0
        ([pendingFile "a"] ++ pendingFile "c" :: [pendingFile "b"]) =
      handleProcessBatchLoop bkFail none region0 DEFAULT_OPTIONS 3 0 [pendingFile "a"] ++
      AppEvent.progress ((List.length [pendingFile "a"]) + 1) 3 (pendingFile "c").filename ::
      AppEvent.fileUpdate (pendingFile "c").id BatchUpdate.processing ::
      AppEvent.fileUpdate (pendingFile "c").id
        (BatchUpdate.failed (jsOrDefault none "Processing failed")) ::
      handleProcessBatchLoop bkFail none region0 DEFAULT_OPTIONS 3
        ((List.length [pendingFile "a"]) + 1) [pendingFile "b"]) :=
  ⟨by decide, Or.inl rfl, rfl,
   batch_partial_failure_isolation bkFail region0 DEFAULT_OPTIONS
     [pendingFile "a"] [pendingFile "b"] (pendingFile "c") "boom" none region0 3
     (by decide) (Or.inl rfl) rfl⟩

theorem handleProcessBatchLoop_completed_prefix (backend : Backend)
    (errClosure : Option String) (region : WatermarkRegion) (options : RemovalOptions)
    (tf : Nat) :
    ∀ (done rest : List BatchFile) (i : Nat),
    (∀ g ∈ done, g.status = BatchStatus.completed) →
    handleProcessBatchLoop backend errClosure region options tf i (done ++ rest) =
      handleProcessBatchLoop backend errClosure region options tf (i + done.length) rest := by
  intro done
  induction done with
  | nil => intro rest i _; simp
  | cons f fs ih =>
    intro rest i hall
    rw [List.cons_append, handleProcessBatchLoop_cons]
    have hf : appFileTrace backend errClosure region options tf i f = [] := by
      simp [appFileTrace, hall f (List.mem_cons_self f fs)]
    rw [hf, List.nil_append,
      ih rest (i + 1) (fun g hg => hall g (List.mem_cons_of_mem f hg)), List.length_cons]
    congr 1
    omega

theorem appCalls_append (backend : Backend) (region : WatermarkRegion)
    (options : RemovalOptions) (l₁ l₂ : List BatchFile) :
    appCalls backend region options (l₁ ++ l₂) =
      appCalls backend region options l₁ ++ appCalls backend region options l₂ := by
  induction l₁ with
  | nil => rfl
  | cons f fs ih =>
    by_cases h : f.status = BatchStatus.completed ∨ f.status = BatchStatus.failed <;>
      simp [appCalls, h, ih]

theorem appCalls_completed_prefix (backend : Backend) (region : WatermarkRegion)
    (options : RemovalOptions) :
    ∀ (done rest : List BatchFile), (∀ g ∈ done, g.status = BatchStatus.completed) →
    appCalls backend region options (done ++ rest) = appCalls backend region options rest := by
  intro done
  induction done with
  | nil => intro rest _; rfl
  | cons f fs ih =>
    intro rest hall
    rw [List.cons_append]
    have hf : f.status = BatchStatus.completed ∨ f.status = BatchStatus.failed :=
      Or.inl (hall f (List.mem_cons_self f fs))
    simp only [appCalls, if_pos hf]
    exact ih rest fun g hg => hall g (List.mem_cons_of_mem f hg)

/-- C2: a file already `completed` or `failed` when the batch run
reaches it is skipped — it contributes no backend call and no update —
and a run whose leading files are all `completed` processes exactly the
remaining files; this holds both for the hook's `processBatch` trace and
for the App-level `handleProcessBatch` loop (whose events and whose
`removeWatermark` backend calls a skipped file never contributes, the
loop resuming at the next index). -/
theorem batch_skip_resume (backend : Backend) (region : WatermarkRegion)
    (options : RemovalOptions) (errClosure : Option String) (regionA : WatermarkRegion)
    (tf i : Nat) (pre post done rest : List BatchFile) (file : BatchFile)
    (hdone : file.status = BatchStatus.completed ∨ file.status = BatchStatus.failed)
    (hall : ∀ g ∈ done, g.status = BatchStatus.completed) :
    processBatch backend region options (pre ++ file :: post) =
      processBatch backend region options (pre ++ post) ∧
    processBatch backend region options (done ++ rest) =
      processBatch backend region options rest ∧
    handleProcessBatchLoop backend errClosure regionA options tf i (pre ++ file :: post) =
      handleProcessBatchLoop backend errClosure regionA options tf i pre ++
      handleProcessBatchLoop backend errClosure regionA options tf (i + pre.length + 1) post ∧
    handleProcessBatchLoop backend errClosure regionA options tf i (done ++ rest) =
      handleProcessBatchLoop backend errClosure regionA options tf (i + done.length) rest ∧
    appCalls backend regionA options (pre ++ file :: post) =
      appCalls backend regionA options (pre ++ post) ∧
    appCalls backend regionA options (done ++ rest) = appCalls backend regionA options rest := by
  refine ⟨?_, ?_, ?_, ?_, ?_, ?_⟩
  · rw [processBatch_append, processBatch_cons, processBatch_append]
    have hft : fileTrace backend region options file = [] := by
      simp [fileTrace, hdone]
    rw [hft, List.nil_append]
  · exact processBatch_completed_prefix backend region options done rest hall
  · rw [handleProcessBatchLoop_append, handleProcessBatchLoop_cons]
    have hft : appFileTrace backend errClosure regionA options tf (i + pre.length) file = [] := by
      simp [appFileTrace, hdone]
    rw [hft, List.nil_append]
  · exact handleProcessBatchLoop_completed_prefix backend errClosure regionA options tf
      done rest i hall
  · rw [appCalls_append, appCalls_append]
    have hft : appCalls backend regionA options (file :: post) =
        appCalls backend regionA options post := by
      simp only [appCalls, if_pos hdone]
    rw [hft]
  · exact appCalls_completed_prefix backend regionA options done rest hall

theorem batch_skip_resume_witness :
    ((completedFile "x").status = BatchStatus.completed ∨
     (completedFile "x").status = BatchStatus.failed) ∧
    (∀ g ∈ [completedFile "a", completedFile "b"], g.status = BatchStatus.completed) ∧
    (processBatch bkOk region0 DEFAULT_OPTIONS
        ([pendingFile "p"] ++ completedFile "x" :: [pendingFile "q"]) =
      processBatch bkOk region0 DEFAULT_OPTIONS ([pendingFile "p"] ++ [pendingFile "q"]) ∧
    processBatch bkOk region0 DEFAULT_OPTIONS
        ([completedFile "a", completedFile "b"] ++ [pendingFile "c"]) =
      processBatch bkOk region0 DEFAULT_OPTIONS [pendingFile "c"] ∧
    handleProcessBatchLoop bkOk none region0 DEFAULT_OPTIONS 3 0
        ([pendingFile "p"] ++ completedFile "x" :: [pendingFile "q"]) =
      handleProcessBatchLoop bkOk none region0 DEFAULT_OPTIONS 3 0 [pendingFile "p"] ++
      handleProcessBatchLoop bkOk none region0 DEFAULT_OPTIONS 3
        (0 + (List.length [pendingFile "p"]) + 1) [pendingFile "q"] ∧
    handleProcessBatchLoop bkOk none region0 DEFAULT_OPTIONS 3 0
        ([completedFile "a", completedFile "b"] ++ [pendingFile "c"]) =
      handleProcessBatchLoop bkOk none region0 DEFAULT_OPTIONS 3
        (0 + (List.length [completedFile "a", completedFile "b"])) [pendingFile "c"] ∧
    appCalls bkOk region0 DEFAULT_OPTIONS
        ([pendingFile "p"] ++ completedFile "x" :: [pendingFile "q"]) =
      appCalls bkOk region0 DEFAULT_OPTIONS ([pendingFile "p"] ++ [pendingFile "q"]) ∧
    appCalls bkOk region0 DEFAULT_OPTIONS
        ([completedFile "a", completedFile "b"] ++ [pendingFile "c"]) =
      appCalls bkOk region0 DEFAULT_OPTIONS [pendingFile "c"]) :=
  ⟨by decide, by decide,
   batch_skip_resume bkOk region0 DEFAULT_OPTIONS none region0 3 0
     [pendingFile "p"] [pendingFile "q"] [completedFile "a", completedFile "b"]
     [pendingFile "c"] (completedFile "x") (by decide) (by decide)⟩

theorem handleProcessBatch_eq (backend : Backend) (errClosure : Option String)
    (region : WatermarkRegion) (options : RemovalOptions) (files : List BatchFile)
    (hne : files ≠ []) :
    handleProcessBatch backend errClosure (some region) options files =
      handleProcessBatchLoop backend errClosure region options files.length 0 files ++
      [AppEvent.progressCleared] := by
  simp only [handleProcessBatch]
  rw [if_neg (by simpa using hne)]

theorem progressCleared_not_mem_appFileTrace (backend : Backend) (errClosure : Option String)
    (region : WatermarkRegion) (options : RemovalOptions) (totalFiles i : Nat)
    (file : BatchFile) :
    AppEvent.progressCleared ∉ appFileTrace backend errClosure region options totalFiles i file := by
  unfold appFileTrace
  split_ifs
  · simp
  · rcases hres : (removeWatermark backend file.path region (some (toPatch options))).result with _ | r <;>
      simp [hres]

theorem progressCleared_not_mem_loop (backend : Backend) (errClosure : Option String)
    (region : WatermarkRegion) (options : RemovalOptions) (totalFiles : Nat)
    (files : List BatchFile) (i : Nat) :
    AppEvent.progressCleared ∉
      handleProcessBatchLoop backend errClosure region options totalFiles i files := by
  induction files generalizing i with
  | nil => simp [handleProcessBatchLoop]
  | cons f fs ih =>
    rw [handleProcessBatchLoop_cons]
    intro hmem
    rcases List.mem_append.mp hmem with hblk | htl
    · exact progressCleared_not_mem_appFileTrace backend errClosure region options
        totalFiles i f hblk
    · exact ih (i + 1) htl

/-- C3: `handleProcessBatch` walks the file list one at a time in order;
for each eligible file it first publishes the progress record
`{currentIndex = 1-based position, totalFiles = list length,
currentFilename}`, then marks the file `processing`, then awaits its
processing and records its terminal update; after the last file the
progress record is cleared, and the clear is the last event and occurs
nowhere inside the loop. -/
theorem batch_progress_protocol (backend : Backend) (errClosure : Option String)
    (region : WatermarkRegion) (options : RemovalOptions)
    (pre post : List BatchFile) (file : BatchFile)
    (helig : ¬(file.status = BatchStatus.completed ∨ file.status = BatchStatus.failed)) :
    handleProcessBatch backend errClosure (some region) options (pre ++ file :: post) =
      handleProcessBatchLoop backend errClosure region options
          (pre ++ file :: post).length 0 pre ++
      AppEvent.progress (pre.length + 1) (pre ++ file :: post).length file.filename ::
      AppEvent.fileUpdate file.id BatchUpdate.processing ::
      ((match (removeWatermark backend file.path region (some (toPatch options))).result with
        | some result => [AppEvent.fileUpdate file.id (BatchUpdate.completed result.output_path)]
        | none => [AppEvent.fileUpdate file.id
            (BatchUpdate.failed (jsOrDefault errClosure "Processing failed"))]) ++
       (handleProcessBatchLoop backend errClosure region options
          (pre ++ file :: post).length (pre.length + 1) post ++
        [AppEvent.progressCleared])) ∧
    (handleProcessBatch backend errClosure (some region) options
        (pre ++ file :: post)).getLast? = some AppEvent.progressCleared ∧
    AppEvent.progressCleared ∉
      handleProcessBatchLoop backend errClosure region options
        (pre ++ file :: post).length 0 (pre ++ file :: post) := by
  have hne : pre ++ file :: post ≠ [] := by simp
  refine ⟨?_, ?_, ?_⟩
  · rw [handleProcessBatch_eq backend errClosure region options _ hne,
      handleProcessBatchLoop_append]
    rw [handleProcessBatchLoop_cons]
    simp only [appFileTrace, if_neg helig, Nat.zero_add, List.append_assoc, List.cons_append,
      List.nil_append]
  · rw [handleProcessBatch_eq backend errClosure region options _ hne]
    rw [List.getLast?_append]
    rfl
  · exact progressCleared_not_mem_loop backend errClosure region options _ _ 0

theorem batch_progress_protocol_witness :
    (¬((pendingFile "b").status = BatchStatus.completed ∨
       (pendingFile "b").status = BatchStatus.failed)) ∧
    (handleProcessBatch bkOk none region0 DEFAULT_OPTIONS
        ([pendingFile "a"] ++ pendingFile "b" :: []) =
      handleProcessBatchLoop bkOk none region0 DEFAULT_OPTIONS
          ([pendingFile "a"] ++ pendingFile "b" :: []).length 0 [pendingFile "a"] ++
      AppEvent.progress ((List.length [pendingFile "a"]) + 1)
          ([pendingFile "a"] ++ pendingFile "b" :: []).length (pendingFile "b").filename ::
      AppEvent.fileUpdate (pendingFile "b").id BatchUpdate.processing ::
      ((match (removeWatermark bkOk (pendingFile "b").path region0
            (some (toPatch DEFAULT_OPTIONS))).result with
        | some result =>
          [AppEvent.fileUpdate (pendingFile "b").id (BatchUpdate.completed result.output_path)]
        | none => [AppEvent.fileUpdate (pendingFile "b").id
            (BatchUpdate.failed (jsOrDefault none "Processing failed"))]) ++
       (handleProcessBatchLoop bkOk none region0 DEFAULT_OPTIONS
          ([pendingFile "a"] ++ pendingFile "b" :: []).length
          ((List.length [pendingFile "a"]) + 1) [] ++
        [AppEvent.progressCleared])) ∧
    (handleProcessBatch bkOk none region0 DEFAULT_OPTIONS
        ([pendingFile "a"] ++ pendingFile "b" :: [])).getLast? =
      some AppEvent.progressCleared ∧
    AppEvent.progressCleared ∉
      handleProcessBatchLoop bkOk none region0 DEFAULT_OPTIONS
        ([pendingFile "a"] ++ pendingFile "b" :: []).length 0
        ([pendingFile "a"] ++ pendingFile "b" :: [])) :=
  ⟨by decide,
   batch_progress_protocol bkOk none region0 DEFAULT_OPTIONS
     [pendingFile "a"] [] (pendingFile "b") (by decide)⟩

theorem callsOf_append (l₁ l₂ : List BEvent) :
    callsOf (l₁ ++ l₂) = callsOf l₁ ++ callsOf l₂ := by
  induction l₁ with
  | nil => rfl
  | cons e es ih => cases e <;> simp [callsOf, ih]

theorem callsOf_fileTrace (backend : Backend) (region : WatermarkRegion)
    (options : RemovalOptions) (file : BatchFile)
    (helig : ¬(file.status = BatchStatus.completed ∨ file.status = BatchStatus.failed)) :
    callsOf (fileTrace backend region options file) = [(batchCmd options, file.path)] := by
  unfold fileTrace
  rw [if_neg helig]
  rcases backend (batchCmd options) file.path region options with e | r
  · rfl
  · rcases r with _ | pr <;> rfl

/-- C4: a single-item request invokes exactly one backend inpainting
command — the cloud command iff the merged options select the cloud
method, the local command otherwise — and per eligible file
`processBatch` makes exactly one call, routed by the same rule on its
(unmerged) options. -/
theorem dispatcher_routing (backend : Backend) (imagePath : String)
    (regionS : WatermarkRegion) (patch : Option RemovalOptionsPatch)
    (regionB : WatermarkRegion) (options : RemovalOptions)
    (pre post : List BatchFile) (file : BatchFile)
    (helig : ¬(file.status = BatchStatus.completed ∨ file.status = BatchStatus.failed)) :
    (removeWatermark backend imagePath regionS patch).calls = [(routedCmd patch, imagePath)] ∧
    (routedCmd patch = Cmd.remove_watermark_cloud ↔
      (mergeOptions patch).processing_method = ProcessingMethod.cloud) ∧
    callsOf (processBatch backend regionB options (pre ++ file :: post)) =
      callsOf (processBatch backend regionB options pre) ++
      (batchCmd options, file.path) ::
      callsOf (processBatch backend regionB options post) ∧
    (batchCmd options = Cmd.remove_watermark_cloud ↔
      options.processing_method = ProcessingMethod.cloud) := by
  refine ⟨?_, ?_, ?_, ?_⟩
  · by_cases hm : (mergeOptions patch).processing_method = ProcessingMethod.cloud
    · cases hb : backend Cmd.remove_watermark_cloud imagePath regionS (mergeOptions patch) <;>
        simp [removeWatermark, routedCmd, hm, hb]
    · cases hb : backend Cmd.remove_watermark imagePath regionS (mergeOptions patch) <;>
        simp [removeWatermark, routedCmd, hm, hb]
  · by_cases hm : (mergeOptions patch).processing_method = ProcessingMethod.cloud <;>
      simp [routedCmd, hm]
  · rw [processBatch_append, processBatch_cons, callsOf_append, callsOf_append,
      callsOf_fileTrace backend regionB options file helig]
    simp
  · by_cases hm : options.processing_method = ProcessingMethod.cloud <;>
      simp [batchCmd, hm]

theorem dispatcher_routing_witness :
    (¬((pendingFile "f").status = BatchStatus.completed ∨
       (pendingFile "f").status = BatchStatus.failed)) ∧
    ((removeWatermark bkOk "img.png" region0 none).calls = [(routedCmd none, "img.png")] ∧
    (routedCmd none = Cmd.remove_watermark_cloud ↔
      (mergeOptions none).processing_method = ProcessingMethod.cloud) ∧
    callsOf (processBatch bkOk region0 DEFAULT_OPTIONS
        ([pendingFile "a"] ++ pendingFile "f" :: [pendingFile "b"])) =
      callsOf (processBatch bkOk region0 DEFAULT_OPTIONS [pendingFile "a"]) ++
      (batchCmd DEFAULT_OPTIONS, (pendingFile "f").path) ::
      callsOf (processBatch bkOk region0 DEFAULT_OPTIONS [pendingFile "b"]) ∧
    (batchCmd DEFAULT_OPTIONS = Cmd.remove_watermark_cloud ↔
      DEFAULT_OPTIONS.processing_method = ProcessingMethod.cloud)) :=
  ⟨by decide,
   dispatcher_routing bkOk "img.png" region0 none region0 DEFAULT_OPTIONS
     [pendingFile "a"] [pendingFile "b"] (pendingFile "f") (by decide)⟩

end WatermarkRemover
